import Mathlib

/-
Verification development for the bash2go transpiler (IR builder and code
generator). The definitions below are shallow embeddings of the Go source:
the word-value extraction, command classification, pipe flattening and
conditional linearization of the IR builder (package parser), the statement
lowering of the code generator (package generator), and the source assembly
of CodeGenerator.Build. Machine strings are modelled as Lean String values;
the Go strings package helpers used by the source are re-implemented over
character lists so that all definitions evaluate inside the kernel.
-/

namespace Bash2Go

/-! Ports of the Go strings package functions used by the source. Each is a
direct executable model of the documented Go behaviour. -/

/-- Model of the test strings.HasPrefix performs on the underlying bytes:
listIsPre pat s decides whether pat is a leading segment of s. -/
def listIsPre : List Char → List Char → Bool
  | [], _ => true
  | _ :: _, [] => false
  | p :: ps, c :: cs => p = c && listIsPre ps cs

/-- Go strings.HasPrefix. -/
def goHasPre (s pat : String) : Bool := listIsPre pat.data s.data

/-- Go strings.HasSuffix. -/
def goHasSuf (s pat : String) : Bool := listIsPre pat.data.reverse s.data.reverse

/-- Model of the scan strings.Contains performs: does pat occur inside l. -/
def listContainsSub (pat : List Char) : List Char → Bool
  | [] => listIsPre pat []
  | c :: cs => listIsPre pat (c :: cs) || listContainsSub pat cs

/-- Go strings.Contains. -/
def goContainsSub (s sub : String) : Bool := listContainsSub sub.data s.data

/-- Worker for goReplaceAll: scans the subject left to right; on a match of
old it emits new and then swallows the remaining matched characters through
the skip counter. Faithful to Go strings.ReplaceAll for a nonempty old
pattern (the source never replaces an empty pattern). -/
def replaceAllAux (old new : List Char) : List Char → Nat → List Char
  | [], _ => []
  | _ :: cs, skip + 1 => replaceAllAux old new cs skip
  | c :: cs, 0 =>
      if listIsPre old (c :: cs) && !old.isEmpty then
        new ++ replaceAllAux old new cs (old.length - 1)
      else
        c :: replaceAllAux old new cs 0

/-- Go strings.ReplaceAll. -/
def goReplaceAll (s old new : String) : String :=
  String.mk (replaceAllAux old.data new.data s.data 0)

/-- Go strings.TrimPrefix. -/
def goTrimPre (s pat : String) : String :=
  if goHasPre s pat then String.mk (s.data.drop pat.data.length) else s

/-- Worker for goSplitLines: splits a character list at every newline. -/
def splitLinesAux : List Char → List (List Char)
  | [] => [[]]
  | c :: cs =>
      if c = '\n' then [] :: splitLinesAux cs
      else
        match splitLinesAux cs with
        | [] => [[c]]
        | g :: gs => (c :: g) :: gs

/-- Go strings.Split with separator newline, as used on generated bodies. -/
def goSplitLines (s : String) : List String :=
  (splitLinesAux s.data).map String.mk

/-- Go strings.Join. -/
def goJoin (xs : List String) (sep : String) : String := String.intercalate sep xs

/-! The shell syntax tree, following mvdan.cc/sh/v3/syntax as far as the
embedded source functions inspect it: word parts, call expressions,
statements, binary commands and if clauses. -/

/-- A part of a shell word (syntax.WordPart): literal, parameter expansion,
double-quoted group, single-quoted literal, or command substitution. -/
inductive WordPart where
  | lit (s : String)
  | paramExp (name : String)
  | dblQuoted (parts : List WordPart)
  | sglQuoted (s : String)
  | cmdSubst
deriving Repr

/-- A shell word is its list of parts (syntax.Word.Parts). -/
abbrev Word := List WordPart

/-- Port of extractDblQuotedValue (build.go): concatenates literal parts
verbatim and renders parameter references as dollar-brace tokens; every
other part kind contributes nothing. -/
def extractDblQuotedValue (parts : List WordPart) : String :=
  parts.foldl (fun acc p =>
    match p with
    | .lit v => acc ++ v
    | .paramExp name => acc ++ "$\x7b" ++ name ++ "\x7d"
    | _ => acc) ""

/-- Port of extractWordValue (build.go): concatenates the rendering of every
part of the word. -/
def extractWordValue (w : Word) : String :=
  w.foldl (fun acc p =>
    match p with
    | .lit v => acc ++ v
    | .paramExp name => acc ++ "$" ++ name
    | .dblQuoted parts => acc ++ extractDblQuotedValue parts
    | .sglQuoted v => acc ++ v
    | .cmdSubst => acc ++ "$(command)") ""

/-- The IR Command produced by the builder (parser.Command). -/
structure Command where
  name : String
  args : List String
  isBuiltin : Bool
  useGexe : Bool
deriving Repr, DecidableEq

/-- The switch in processCallExpr that marks a command name as a builtin
with a native lowering. -/
def isBuiltinName (n : String) : Bool :=
  n == "echo" || n == "printf" || n == "cd" || n == "pwd" || n == "exit" ||
  n == "return" || n == "test" || n == "[" || n == "source" || n == "export" ||
  n == "read"

/-- Port of processCallExpr (build.go): the first word is the command name,
the remaining words are arguments; the builtin table sets the
classification flags (IsBuiltin defaults to false and UseGexe to true, and
the switch flips both exactly for the listed names). -/
def processCallExpr (ws : List Word) : Command :=
  match ws with
  | [] => ⟨"", [], false, true⟩
  | w :: rest =>
      let nm := extractWordValue w
      let isB := isBuiltinName nm
      ⟨nm, rest.map extractWordValue, isB, !isB⟩

/-- The IR Assignment produced by the builder (parser.Assignment). -/
structure Assignment where
  name : String
  value : String
  isLocal : Bool
  isExport : Bool
deriving Repr, DecidableEq

/-- The syntax.Assign node fields read by processAssign. -/
structure AssignNode where
  name : String
  value : Option Word
  append : Bool

/-- Port of processAssign (build.go). -/
def processAssign (x : AssignNode) : Assignment :=
  { name := x.name
    value := match x.value with
             | none => ""
             | some w => extractWordValue w
    isLocal := false
    isExport := x.append }

/-- Operator of a syntax.BinaryCmd, as far as the source distinguishes it
(pipe versus anything else). -/
inductive BinOp where
  | pipe
  | andOp
  | orOp
deriving Repr, DecidableEq

mutual
/-- A syntax.Command value, covering the dynamic types flattenPipe
inspects: call expressions, binary commands (whose operands are statements,
as in mvdan), and a catch-all for every other command kind. -/
inductive SCmd where
  | callExpr (args : List Word)
  | binaryCmd (op : BinOp) (x y : SStmt)
  | otherCmd
/-- A syntax.Stmt: an optional carried command. -/
inductive SStmt where
  | mk (cmd : Option SCmd)
end

mutual
/-- Port of flattenPipe (build.go) on a binary-command or call-expression
node: a binary command contributes the flattening of both operand
statements (identically for pipe and non-pipe operators), and a call
expression contributes its processed command. -/
def flattenPipeCmd : SCmd → List Command
  | .binaryCmd _ x y => flattenPipeStmt x ++ flattenPipeStmt y
  | .callExpr ws => [processCallExpr ws]
  | .otherCmd => []
/-- Port of flattenPipe (build.go) on a statement node: only a carried call
expression contributes a command; any other carried command, including a
nested binary command, contributes nothing. -/
def flattenPipeStmt : SStmt → List Command
  | .mk (some (.callExpr ws)) => [processCallExpr ws]
  | .mk _ => []
end

/-- Port of processPipe (build.go): the Pipe statement carries the
flattened command list of the binary command node. -/
def processPipe (x : SCmd) : List Command := flattenPipeCmd x

/-- A syntax.IfClause: condition statements, then-branch statements, and
the optional else clause, which for an elif chain is the next nested if
clause (mvdan represents a plain else as a clause with no condition). -/
inductive IfClause where
  | mk (cond : List SStmt) (thenPart : List SStmt) (elsePart : Option IfClause)

/-- The condition-type switch inside processIfClause (build.go): it fires
only when the test command carries at least two arguments and inspects the
first argument; an unrecognised first argument leaves the type unchanged. -/
def inferCondType (args : List String) (current : String) : String :=
  match args with
  | a0 :: _ :: _ =>
      if a0 = "-f" ∨ a0 = "-d" ∨ a0 = "-e" then "file"
      else if a0 = "-z" ∨ a0 = "-n" ∨ a0 = "=" ∨ a0 = "!=" then "string"
      else if a0 = "-eq" ∨ a0 = "-ne" ∨ a0 = "-lt" ∨ a0 = "-le" ∨ a0 = "-gt" ∨ a0 = "-ge" then "number"
      else current
  | _ => current

/-- The IR statement variant (parser.Statement with its payloads). -/
inductive IRStatement where
  | command (c : Command)
  | assignment (a : Assignment)
  | ifS (condition thenBlock elseBlock : List IRStatement)
        (elifBlocks : List (List IRStatement × List IRStatement))
        (conditionType : String)
  | loop (ltype : String) (condition body : List IRStatement)
         (isRange : Bool) (rangeVar rangeFrom rangeTo : String)
         (isForEach : Bool) (items : String)
  | pipe (cmds : List Command)
  | subshell (stmts : List IRStatement)
  | functionDecl (name : String) (stmts : List IRStatement)
  | redirection (op : String) (filename : String)
  | background (c : Command)
  | returnS (value : String) (code : Int)

/-- The IR If produced by processIfClause (parser.If). -/
structure IfIR where
  condition : List IRStatement
  thenBlock : List IRStatement
  elseBlock : List IRStatement
  elifBlocks : List (List IRStatement × List IRStatement)
  conditionType : String

/-- The condition loop of processIfClause (build.go): each condition
statement that carries a call expression is appended as a command
statement, and when that command is test or bracket the condition type is
updated through inferCondType. -/
def processCondStmts (cond : List SStmt) : List IRStatement × String :=
  cond.foldl (fun acc s =>
    match s with
    | .mk (some (.callExpr ws)) =>
        let cmd := processCallExpr ws
        let t := if cmd.name = "test" ∨ cmd.name = "[" then inferCondType cmd.args acc.2 else acc.2
        (acc.1 ++ [IRStatement.command cmd], t)
    | _ => acc) ([], "command")

/-- The then-block loop of processIfClause (build.go): only statements
carrying a call expression are lowered, each to a command statement. -/
def processBlockStmts (stmts : List SStmt) : List IRStatement :=
  stmts.foldl (fun acc s =>
    match s with
    | .mk (some (.callExpr ws)) => acc ++ [IRStatement.command (processCallExpr ws)]
    | _ => acc) []

/-- Port of processIfClause (build.go). The else field, when present, is
the next clause of the elif chain; the source processes it recursively and
appends a single condition/then pair to ElifBlocks, and it never assigns
ElseBlock. -/
def processIfClause : IfClause → IfIR
  | .mk cond thenPart none =>
      { condition := (processCondStmts cond).1
        thenBlock := processBlockStmts thenPart
        elseBlock := []
        elifBlocks := []
        conditionType := (processCondStmts cond).2 }
  | .mk cond thenPart (some e) =>
      let ei := processIfClause e
      { condition := (processCondStmts cond).1
        thenBlock := processBlockStmts thenPart
        elseBlock := []
        elifBlocks := [(ei.condition, ei.thenBlock)]
        conditionType := (processCondStmts cond).2 }

end Bash2Go

namespace Bash2Go

/-! The code generator (generator/transpiler.go). The Go methods mutate a
RequiredImports map as they emit text; that map is recomputed by a scan at
the start of Generate before any import is registered with the underlying
CodeGenerator, so the per-statement mutations never reach the emitted
source and the emission functions are modelled as pure text producers. The
Go signatures return a string and an error; every branch of the command
generator returns a nil error, which the Except embedding keeps visible. -/

/-- Character class for the start of a variable name (isValidVarNameStart). -/
def isValidVarNameStart (c : Char) : Bool :=
  (('a' ≤ c) && (c ≤ 'z')) || (('A' ≤ c) && (c ≤ 'Z')) || (c = '_')

/-- Character class for the continuation of a variable name
(isValidVarNameChar). -/
def isValidVarNameChar (c : Char) : Bool :=
  isValidVarNameStart c || (('0' ≤ c) && (c ≤ '9'))

/-- Worker for extractVariableNames: the Go loop state is the in-variable
flag, the name accumulator, and the collected names; a dollar followed by a
valid start character resets the accumulator, and a non-name character
flushes it. -/
def extractVariableNamesAux : List Char → Bool → List Char → List String → List String
  | [], inVar, varName, result =>
      if inVar then result ++ [String.mk varName] else result
  | c :: rest, inVar, varName, result =>
      if c = '$' && (match rest with
                     | c2 :: _ => isValidVarNameStart c2
                     | [] => false) then
        extractVariableNamesAux rest true [] result
      else if inVar then
        if isValidVarNameChar c then
          extractVariableNamesAux rest inVar (varName ++ [c]) result
        else
          extractVariableNamesAux rest false varName (result ++ [String.mk varName])
      else
        extractVariableNamesAux rest inVar varName result

/-- Port of extractVariableNames (transpiler.go). -/
def extractVariableNames (s : String) : List String :=
  extractVariableNamesAux s.data false [] []

/-- The dollar-reference stripping shared by the cd and echo argument
handling: trim the leading dollar and, when the remainder is brace
wrapped, the braces as well. -/
def varRefName (arg : String) : String :=
  let v := goTrimPre arg "$"
  if goHasPre v "\x7b" && goHasSuf v "\x7d" then (v.drop 1).dropRight 1 else v

/-- The per-argument processing of the echo arm of generateCommand
(transpiler.go): quoted arguments containing a dollar go through the
brace-token and dollar-name replacements; bare dollar references become the
stripped variable name; anything else is quoted. -/
def processEchoArg (arg : String) : String :=
  if goHasPre arg "\"" && goHasSuf arg "\"" then
    if goContainsSub arg "$" then
      let p0 := (arg.drop 1).dropRight 1
      let p1 := goReplaceAll p0 "$\x7b" "\" + "
      let p2 := goReplaceAll p1 "\x7d" " + \""
      let p3 := (extractVariableNames p2).foldl
        (fun s v => goReplaceAll s ("$" ++ v) ("\" + " ++ v ++ " + \"")) p2
      "\"" ++ p3 ++ "\""
    else arg
  else if goHasPre arg "$" then varRefName arg
  else "\"" ++ arg ++ "\""

/-- The flag scan of the rm arm of generateCommand: arguments -r, -rf and
-fr set the recursive flag; every argument that does not start with a dash
overwrites the target. -/
def rmScan : List String → Bool → String → Bool × String
  | [], r, t => (r, t)
  | a :: rest, r, t =>
      if a = "-r" ∨ a = "-rf" ∨ a = "-fr" then rmScan rest true t
      else if !(goHasPre a "-") then rmScan rest r a
      else rmScan rest r t

/-- The space-quoting applied to arguments of gexe command strings. -/
def quoteIfSpace (arg : String) : String :=
  if goContainsSub arg " " && !(goHasPre arg "\"") then "\"" ++ arg ++ "\"" else arg

/-- The command string assembled for gexe execution: the name followed by
each space-quoted argument. -/
def gexeCmdStr (c : Command) : String :=
  c.name ++ String.join (c.args.map (fun a => " " ++ quoteIfSpace a))

/-- The test-condition switch of the test arm of generateCommand
(transpiler.go lines 652 on): dash-f, dash-d, dash-z and dash-n produce a
native check with dollar handling on the operand; every other first
argument falls back to running the test invocation through gexe. -/
def testCommandExpr (args : List String) : String :=
  match args with
  | a0 :: a1 :: _ =>
      if a0 = "-f" then
        if goHasPre a1 "$" then
          "_, err := os.Stat(" ++ goTrimPre a1 "$" ++ "); err == nil"
        else "_, err := os.Stat(\"" ++ a1 ++ "\"); err == nil"
      else if a0 = "-d" then
        if goHasPre a1 "$" then
          "info, err := os.Stat(" ++ goTrimPre a1 "$" ++ ")\n\tif err == nil && info.IsDir()"
        else "info, err := os.Stat(\"" ++ a1 ++ "\")\n\tif err == nil && info.IsDir()"
      else if a0 = "-z" then
        if goHasPre a1 "$" then "len(" ++ goTrimPre a1 "$" ++ ") == 0"
        else "len(\"" ++ a1 ++ "\") == 0"
      else if a0 = "-n" then
        if goHasPre a1 "$" then "len(" ++ goTrimPre a1 "$" ++ ") > 0"
        else "len(\"" ++ a1 ++ "\") > 0"
      else "exe.Run(\"test " ++ goJoin args " " ++ "\").Success()"
  | _ => "exe.Run(\"test " ++ goJoin args " " ++ "\").Success()"

/-- Port of generateCommand (transpiler.go, the current generator): one arm
per builtin name, then the gexe or exec.Command fallback selected by the
UseGexe flag. Every arm returns success, matching the nil error of every
Go return. -/
def generateCommand (c : Command) : Except String String :=
  match c.name with
  | "echo" =>
      if c.args.length = 0 then .ok "fmt.Println()"
      else .ok ("fmt.Println(" ++ goJoin (c.args.map processEchoArg) ", " ++ ")")
  | "cd" =>
      match c.args with
      | [] => .ok "err = os.Chdir(os.Getenv(\"HOME\"))"
      | arg :: _ =>
          if goHasPre arg "$" then .ok ("err = os.Chdir(" ++ varRefName arg ++ ")")
          else .ok ("err = os.Chdir(\"" ++ arg ++ "\")")
  | "pwd" =>
      .ok "dir, err := os.Getwd()\n\tif err != nil \x7b\n\t\treturn err\n\t\x7d\n\tfmt.Println(dir)"
  | "mkdir" =>
      match c.args with
      | [] => .ok "// Warning: mkdir command with no arguments"
      | arg :: _ =>
          if goHasPre arg "$" then
            .ok ("err = os.MkdirAll(" ++ goTrimPre arg "$" ++ ", 0755)")
          else .ok ("err = os.MkdirAll(\"" ++ arg ++ "\", 0755)")
  | "rm" =>
      match c.args with
      | [] => .ok "// Warning: rm command with no arguments"
      | _ =>
          let rt := rmScan c.args false ""
          if goHasPre rt.2 "$" then
            if rt.1 then .ok ("err = os.RemoveAll(" ++ goTrimPre rt.2 "$" ++ ")")
            else .ok ("err = os.Remove(" ++ goTrimPre rt.2 "$" ++ ")")
          else
            if rt.1 then .ok ("err = os.RemoveAll(\"" ++ rt.2 ++ "\")")
            else .ok ("err = os.Remove(\"" ++ rt.2 ++ "\")")
  | "cp" =>
      match c.args with
      | a0 :: a1 :: _ =>
          let src := if goHasPre a0 "$" then goTrimPre a0 "$" else "\"" ++ a0 ++ "\""
          let dst := if goHasPre a1 "$" then goTrimPre a1 "$" else "\"" ++ a1 ++ "\""
          .ok ("data, err := ioutil.ReadFile(" ++ src ++
               ")\n\tif err != nil \x7b\n\t\treturn err\n\t\x7d\n\terr = ioutil.WriteFile(" ++
               dst ++ ", data, 0644)")
      | _ => .ok "// Warning: cp command with insufficient arguments"
  | "test" =>
      if c.args.length < 2 then .ok "// Warning: test command with insufficient arguments"
      else .ok (testCommandExpr c.args)
  | "[" =>
      if c.args.length < 2 then .ok "// Warning: test command with insufficient arguments"
      else .ok (testCommandExpr c.args)
  | "exit" =>
      match c.args with
      | [] => .ok "os.Exit(0)"
      | code :: _ =>
          if goHasPre code "$" then .ok ("os.Exit(" ++ goTrimPre code "$" ++ ")")
          else .ok ("os.Exit(" ++ code ++ ")")
  | _ =>
      if c.useGexe then
        .ok ("// Execute command: " ++ gexeCmdStr c ++
             "\n\toutput := exe.Run(\"" ++ gexeCmdStr c ++
             "\").Stdout()\n\tfmt.Print(output)")
      else
        let args := c.args.map (fun arg =>
          if goHasPre arg "$" then goTrimPre arg "$" else "\"" ++ arg ++ "\"")
        let argsStr := if args.length > 0 then ", " ++ goJoin args ", " else ""
        .ok ("cmd := exec.Command(\"" ++ c.name ++ "\"" ++ argsStr ++
             ")\n\toutput, err := cmd.CombinedOutput()\n\tif err != nil \x7b\n\t\treturn fmt.Errorf(\"failed to execute command: %v\", err)\n\t\x7d\n\tfmt.Print(string(output))")

/-- Port of generateAssignment (transpiler.go). -/
def generateAssignment (a : Assignment) : Except String String :=
  if a.isLocal then .ok ("var " ++ a.name ++ " = " ++ a.value)
  else if a.isExport then .ok ("os.Setenv(\"" ++ a.name ++ "\", " ++ a.value ++ ")")
  else .ok (a.name ++ " := " ++ a.value)

/-- The native comparison selected by generateCondition for a test command;
none means the switch fell through (unknown first argument, or a binary
operator without its second operand) and the gexe fallback applies. -/
def condTestExpr (args : List String) : Option String :=
  match args with
  | a0 :: a1 :: rest =>
      if a0 = "-f" then some ("_, err := os.Stat(\"" ++ a1 ++ "\"); err == nil")
      else if a0 = "-d" then some ("info, err := os.Stat(\"" ++ a1 ++ "\"); err == nil && info.IsDir()")
      else if a0 = "-z" then some ("len(\"" ++ a1 ++ "\") == 0")
      else if a0 = "-n" then some ("len(\"" ++ a1 ++ "\") > 0")
      else if a0 = "=" then
        match rest with
        | a2 :: _ => some ("\"" ++ a1 ++ "\" == \"" ++ a2 ++ "\"")
        | [] => none
      else if a0 = "!=" then
        match rest with
        | a2 :: _ => some ("\"" ++ a1 ++ "\" != \"" ++ a2 ++ "\"")
        | [] => none
      else if a0 = "-eq" then
        match rest with
        | a2 :: _ => some (a1 ++ " == " ++ a2)
        | [] => none
      else if a0 = "-ne" then
        match rest with
        | a2 :: _ => some (a1 ++ " != " ++ a2)
        | [] => none
      else if a0 = "-lt" then
        match rest with
        | a2 :: _ => some (a1 ++ " < " ++ a2)
        | [] => none
      else if a0 = "-le" then
        match rest with
        | a2 :: _ => some (a1 ++ " <= " ++ a2)
        | [] => none
      else if a0 = "-gt" then
        match rest with
        | a2 :: _ => some (a1 ++ " > " ++ a2)
        | [] => none
      else if a0 = "-ge" then
        match rest with
        | a2 :: _ => some (a1 ++ " >= " ++ a2)
        | [] => none
      else none
  | _ => none

/-- Port of generateCondition (transpiler.go): only the first condition
statement is consulted; a test command with a recognised comparison lowers
natively, any other command falls back to a gexe success check, and a
non-command first statement (or no condition at all) lowers to true. The
conditionType parameter is unused by the source. -/
def generateCondition (conditions : List IRStatement) (_condType : String) : String :=
  match conditions with
  | [] => "true"
  | .command cmd :: _ =>
      let native := if cmd.name = "test" ∨ cmd.name = "[" then condTestExpr cmd.args else none
      match native with
      | some e => e
      | none =>
          let cmdStr := cmd.name ++ String.join (cmd.args.map (fun a => " " ++ a))
          "exe.Run(\"" ++ cmdStr ++ "\").Success()"
  | _ :: _ => "true"

/-- Port of generatePipe (transpiler.go): the stage commands are joined
into one gexe pipeline string. -/
def generatePipe (cmds : List Command) : Except String String :=
  match cmds with
  | [] => .ok "// Empty pipe"
  | _ =>
      let cmdStr := goJoin (cmds.map gexeCmdStr) " | "
      .ok ("// Execute piped command: " ++ cmdStr ++
           "\n\toutput := exe.Run(\"" ++ cmdStr ++ "\").Stdout()\n\tfmt.Print(output)")

/-- Port of generateRedirection (transpiler.go): the three recognised
operators emit a scoped file open with a TODO body; any other operator
emits a comment place holder with success. -/
def generateRedirection (op filename : String) : Except String String :=
  if op = ">" then
    .ok ("// Redirect output to " ++ filename ++
         "\n\tfile, err := os.Create(\"" ++ filename ++
         "\")\n\tif err != nil \x7b\n\t\treturn err\n\t\x7d\n\tdefer file.Close()\n\t\n\t// TODO: Execute command and write output to file")
  else if op = ">>" then
    .ok ("// Redirect output to " ++ filename ++
         " (append)\n\tfile, err := os.OpenFile(\"" ++ filename ++
         "\", os.O_APPEND|os.O_CREATE|os.O_WRONLY, 0644)\n\tif err != nil \x7b\n\t\treturn err\n\t\x7d\n\tdefer file.Close()\n\t\n\t// TODO: Execute command and write output to file")
  else if op = "<" then
    .ok ("// Redirect input from " ++ filename ++
         "\n\tfile, err := os.Open(\"" ++ filename ++
         "\")\n\tif err != nil \x7b\n\t\treturn err\n\t\x7d\n\tdefer file.Close()\n\t\n\t// TODO: Execute command with input from file")
  else .ok ("// Unsupported redirection: " ++ op)

mutual
/-- Port of generateStatement (transpiler.go, the current generator), with
the bodies of the generateIf, generateLoop and generateSubshell methods
inlined at their call sites; the tagged-union embedding makes the Go
default arm (a comment for an out-of-range statement tag) unreachable.
Note that the if arm ignores the elif pair list and that the loop arm with
an unrecognised loop kind and the function-declaration arm return comment
text with success. -/
def generateStatement : IRStatement → Except String String
  | .command c => generateCommand c
  | .assignment a => generateAssignment a
  | .ifS cond thenB elseB _elifs condTy => do
      let condition := generateCondition cond condTy
      let thenBlock ← generateStatements thenB
      let elseBlock ← (if elseB.length > 0 then generateStatements elseB else .ok "")
      .ok ("if " ++ condition ++ " \x7b\n" ++ thenBlock ++
           (if elseBlock ≠ "" then "\x7d else \x7b\n" ++ elseBlock else "") ++ "\x7d")
  | .loop ltype cond body isRange rangeVar rangeFrom rangeTo isForEach items => do
      let bodyText ← generateStatements body
      if ltype = "for" then
        if isForEach then
          .ok ("items := strings.Fields(\"" ++ items ++ "\")\n\tfor _, " ++ rangeVar ++
               " := range items \x7b\n\t\t" ++ bodyText ++ "\n\t\x7d")
        else if isRange then
          .ok ("for " ++ rangeVar ++ " := " ++ rangeFrom ++ "; " ++ rangeVar ++ " <= " ++
               rangeTo ++ "; " ++ rangeVar ++ "++ \x7b\n\t\t" ++ bodyText ++ "\n\t\x7d")
        else .ok ("for \x7b\n\t\t" ++ bodyText ++ "\n\t\x7d")
      else if ltype = "while" then
        let condition := generateCondition cond "command"
        .ok ("for " ++ condition ++ " \x7b\n\t\t" ++ bodyText ++ "\n\t\x7d")
      else if ltype = "until" then
        let condition := generateCondition cond "command"
        .ok ("for !(" ++ condition ++ ") \x7b\n\t\t" ++ bodyText ++ "\n\t\x7d")
      else
        .ok ("// Unsupported loop type: " ++ ltype ++ "\n\tfor \x7b\n\t\t" ++ bodyText ++ "\n\t\x7d")
  | .pipe cmds => generatePipe cmds
  | .subshell stmts => do
      let s ← generateStatements stmts
      .ok ("// Execute subshell\n\tfunc() \x7b\n\t\t" ++ s ++ "\n\t\x7d()")
  | .functionDecl _ _ => .ok "// Function declaration (handled separately)"
  | .redirection op filename => generateRedirection op filename
  | .background c => do
      let cmdCode ← generateCommand c
      .ok ("go func() \x7b\n\t" ++ cmdCode ++ "\n\x7d()")
  | .returnS value code =>
      if value ≠ "" then .ok ("return " ++ value) else .ok ("return " ++ toString code)

/-- Port of generateStatements (transpiler.go): each statement is lowered
in order and followed by a newline; the first failure aborts. -/
def generateStatements : List IRStatement → Except String String
  | [] => .ok ""
  | s :: rest => do
      let code ← generateStatement s
      let restText ← generateStatements rest
      .ok (code ++ "\n" ++ restText)
end

end Bash2Go

namespace Bash2Go

/-! The source assembly of generator/generator.go (CodeBuilder and
CodeGenerator) and the Generate method of generator/transpiler.go. Go maps
appear at two points. The import sets (GoCodeGenerator.RequiredImports and
CodeGenerator.imports) are modelled as insertion-ordered duplicate-free
key lists: their iteration order feeds only a final lexical sort, so no
choice of iteration order can reach the output and the list order is
immaterial. The IR tables (IntermediateRepresentation.Variables and
Functions) are iterated directly into the emitted globals and function
declarations, so their Go map iteration order is an input of the emission:
the IRGen record carries each table as the key-value sequence in the order
the iteration yields, and two runs over the same tables are two IRGen
values with permuted sequences. -/

/-- The accumulating text builder (generator.go CodeBuilder), with the tab
indent string fixed by NewCodeBuilder. -/
structure CodeBuilder where
  buf : String
  indentLevel : Nat

/-- Port of CodeBuilder.WriteLine. -/
def CodeBuilder.writeLine (cb : CodeBuilder) (line : String) : CodeBuilder :=
  { cb with buf := cb.buf ++ String.join (List.replicate cb.indentLevel "\t") ++ line ++ "\n" }

/-- Port of CodeBuilder.Indent. -/
def CodeBuilder.indent (cb : CodeBuilder) : CodeBuilder :=
  { cb with indentLevel := cb.indentLevel + 1 }

/-- Port of CodeBuilder.Outdent (saturating at zero, as the source guards). -/
def CodeBuilder.outdent (cb : CodeBuilder) : CodeBuilder :=
  { cb with indentLevel := cb.indentLevel - 1 }

/-- A generated Go function (generator.go Function). -/
structure GoFunction where
  name : String
  parameters : List (String × String)
  returnType : String
  body : List String
  comments : List String

/-- The generator state (generator.go CodeGenerator). -/
structure CodeGenerator where
  packageName : String
  imports : List String
  globals : List String
  functions : List GoFunction

/-- Port of CodeGenerator.AddImport: map insertion, modelled as a
duplicate-free append. -/
def addImport (cg : CodeGenerator) (pkg : String) : CodeGenerator :=
  if pkg ∈ cg.imports then cg else { cg with imports := cg.imports ++ [pkg] }

/-- Port of CodeGenerator.AddGlobal. -/
def addGlobal (cg : CodeGenerator) (g : String) : CodeGenerator :=
  { cg with globals := cg.globals ++ [g] }

/-- Port of CodeGenerator.AddFunction. -/
def addFunction (cg : CodeGenerator) (fn : GoFunction) : CodeGenerator :=
  { cg with functions := cg.functions ++ [fn] }

/-- Model of sort.Strings as applied to the import keys in Build:
insertion sort under the lexicographic order, which agrees with the Go
sort on the unique sorted arrangement of a key set. -/
def sortStrings (l : List String) : List String := List.insertionSort (· ≤ ·) l

/-- Port of CodeGenerator.Build up to the final go/format.Source call: the
package line, the sorted import block when any import is registered, the
global lines, and each function with its comment lines, signature, body
and a trailing blank line. The go/format step is an external formatter
invoked on this text and is not modelled; the emission order facts below
are settled on the text handed to it. -/
def buildSource (cg : CodeGenerator) : String :=
  let cb : CodeBuilder := ⟨"", 0⟩
  let cb := cb.writeLine ("package " ++ cg.packageName)
  let cb := cb.writeLine ""
  let cb :=
    if cg.imports.length > 0 then
      let cb := cb.writeLine "import ("
      let cb := cb.indent
      let cb := (sortStrings cg.imports).foldl (fun b imp => b.writeLine ("\"" ++ imp ++ "\"")) cb
      let cb := cb.outdent
      let cb := cb.writeLine ")"
      cb.writeLine ""
    else cb
  let cb := cg.globals.foldl (fun b g => b.writeLine g) cb
  let cb := if cg.globals.length > 0 then cb.writeLine "" else cb
  let cb := cg.functions.foldl (fun b fn =>
      let b := fn.comments.foldl (fun b c => b.writeLine ("// " ++ c)) b
      let params := goJoin (fn.parameters.map (fun p => p.1 ++ " " ++ p.2)) ", "
      let signature := "func " ++ fn.name ++ "(" ++ params ++ ")" ++
        (if fn.returnType ≠ "" then " " ++ fn.returnType else "")
      let b := b.writeLine (signature ++ " \x7b")
      let b := b.indent
      let b := fn.body.foldl (fun b line => b.writeLine line) b
      let b := b.outdent
      let b := b.writeLine "\x7d"
      b.writeLine "") cb
  cb.buf

/-- The intermediate representation consumed by Generate, with the two Go
map tables carried as key-value sequences in iteration order (see the
section comment). -/
structure IRGen where
  varTable : List (String × String)
  funcTable : List (String × List IRStatement)
  mainStatements : List IRStatement

/-- The import pre-scan at the top of Generate (transpiler.go): commands
add the gexe module when flagged for it, otherwise os/exec when not a
builtin, and fmt when named echo; pipes add the gexe module. -/
def requiredImportsScan (stmts : List IRStatement) : List String :=
  stmts.foldl (fun acc stmt =>
    match stmt with
    | .command cmd =>
        let acc :=
          if cmd.useGexe then if "github.com/vladimirvivien/gexe" ∈ acc then acc else acc ++ ["github.com/vladimirvivien/gexe"]
          else if !cmd.isBuiltin then if "os/exec" ∈ acc then acc else acc ++ ["os/exec"]
          else acc
        if cmd.name = "echo" then if "fmt" ∈ acc then acc else acc ++ ["fmt"] else acc
    | .pipe _ => if "github.com/vladimirvivien/gexe" ∈ acc then acc else acc ++ ["github.com/vladimirvivien/gexe"]
    | _ => acc) []

/-- Port of Generate (transpiler.go): pre-scan the main statements for
imports, register them, emit one global per variable-table entry and one
function per function-table entry in iteration order, emit the main
function, and assemble the source through Build. -/
def Generate (ir : IRGen) : Except String String := do
  let cg : CodeGenerator := ⟨"main", [], [], []⟩
  let cg := (requiredImportsScan ir.mainStatements).foldl addImport cg
  let cg := ir.varTable.foldl (fun cg nv => addGlobal cg ("var " ++ nv.1 ++ " = " ++ nv.2)) cg
  let cg ← ir.funcTable.foldlM (fun cg nf => do
      let funcBody ← generateStatements nf.2
      let bodyLines := goSplitLines funcBody
      pure (addFunction cg
        ⟨nf.1, [], "", bodyLines, ["Function " ++ nf.1 ++ " from the original Bash script"]⟩)) cg
  let mainBody ← generateStatements ir.mainStatements
  let mainLines := goSplitLines mainBody
  let cg := addFunction cg ⟨"main", [], "", mainLines, ["Main function generated from Bash script"]⟩
  .ok (buildSource cg)

/-! Runtime semantics of the emitted fragments that observe the working
directory, for the subshell-isolation property. The cd builtin lowers to
os.Chdir, a mutation of the process-wide working directory (the
no-argument form targets the HOME environment value), and the subshell
lowering is an immediately-invoked Go function literal whose body runs
against that same process state: the emitted wrapper (see the subshell arm
of generateStatement) contains no directory save or restore. The state
model therefore carries the process working directory and the HOME value,
and only the cd and subshell arms touch it. -/

/-- The process state observed by the emitted program. -/
structure RunState where
  cwd : String
  home : String
deriving Repr, DecidableEq

mutual
/-- Effect of one lowered statement on the process working directory: a cd
command is os.Chdir on its first argument (or HOME), a subshell runs its
body as an immediately-invoked function against the same state, and no
other lowered statement changes the working directory. -/
def execStmt : IRStatement → RunState → RunState
  | .command c, st =>
      if c.name = "cd" then
        match c.args with
        | [] => { st with cwd := st.home }
        | a :: _ => { st with cwd := a }
      else st
  | .subshell stmts, st => execStmts stmts st
  | _, st => st

/-- Effect of a lowered statement sequence, in order. -/
def execStmts : List IRStatement → RunState → RunState
  | [], st => st
  | s :: rest, st => execStmts rest (execStmt s st)
end

end Bash2Go

namespace Bash2Go.Legacy

/-! The legacy builder (the early build.go revision whose processCommand
the unsupported-construct claim cites). Its statement and command records
predate the classification flags. -/

/-- The legacy parser.Command. -/
structure OldCommand where
  name : String
  args : List String
deriving Repr, DecidableEq

/-- The legacy parser.Statement payloads constructed by processCommand:
commands, a pipe (built with an empty command list), and a subshell (built
with an empty statement list). -/
inductive OldStatement where
  | command (c : OldCommand)
  | pipe (cmds : List OldCommand)
  | subshell

/-- The syntax.Command dynamic types distinguished by the legacy
processCommand switch. The binary-command operands and the contents of the
structured nodes are elided because the legacy code never reads them: it
answers from the node kind alone. The otherNode kind stands for every
remaining dynamic type, carrying the type name the error message prints. -/
inductive Node where
  | callExpr (args : List Word)
  | binaryCmd (op : BinOp)
  | subshellNode
  | blockNode
  | ifClauseNode
  | whileClauseNode
  | forClauseNode
  | funcDeclNode
  | otherNode (kind : String)

/-- Abstraction of the fmt %v rendering the legacy argument extraction
applies to word parts it does not recognise (a Go pointer dump); no claim
evaluates this branch. -/
def goFmtVerbV (_p : WordPart) : String := "%!v"

/-- The legacy per-argument extraction: only the first part of each word is
consulted; literals pass verbatim, parameter expansions gain a dollar,
double-quoted groups keep only their literal sub-parts, and anything else
is rendered through fmt %v. -/
def oldArgValue : WordPart → String
  | .lit v => v
  | .paramExp name => "$" ++ name
  | .dblQuoted parts => parts.foldl (fun acc q =>
      match q with
      | .lit v => acc ++ v
      | _ => acc) ""
  | p => goFmtVerbV p

/-- The legacy argument loop: words with no parts are skipped. -/
def oldExtractArgs : List Word → List String
  | [] => []
  | [] :: rest => oldExtractArgs rest
  | (p :: _) :: rest => oldArgValue p :: oldExtractArgs rest

/-- The legacy command-name extraction: the first part of the first word
when it is a literal, otherwise the empty name. -/
def oldExtractName (w : Word) : String :=
  match w with
  | .lit v :: _ => v
  | _ => ""

/-- Port of the legacy processCommand (build.go): call expressions are
extracted; a pipe binary command becomes an empty pipe statement and any
other binary command a placeholder echo; subshells become empty subshell
statements; block, if, while, for and function-declaration nodes each
become a placeholder echo command; only the remaining dynamic types reach
the error return. -/
def processCommand : Node → Except String OldStatement
  | .callExpr [] => .ok (.command ⟨"", []⟩)
  | .callExpr (w :: rest) => .ok (.command ⟨oldExtractName w, oldExtractArgs rest⟩)
  | .binaryCmd op =>
      if op = BinOp.pipe then .ok (.pipe [])
      else .ok (.command ⟨"echo", ["Binary command not fully implemented"]⟩)
  | .subshellNode => .ok .subshell
  | .blockNode => .ok (.command ⟨"echo", ["Block not fully implemented"]⟩)
  | .ifClauseNode => .ok (.command ⟨"echo", ["If statement not fully implemented"]⟩)
  | .whileClauseNode => .ok (.command ⟨"echo", ["While loop not fully implemented"]⟩)
  | .forClauseNode => .ok (.command ⟨"echo", ["For loop not fully implemented"]⟩)
  | .funcDeclNode => .ok (.command ⟨"echo", ["Function declaration not fully implemented"]⟩)
  | .otherNode kind => .error ("unsupported command type: " ++ kind)

end Bash2Go.Legacy

namespace Bash2Go

/-! Shared builders for concrete syntax inputs and auxiliary lemmas used by
the claim theorems. -/

/-- A single-part literal word. -/
def litWord (s : String) : Word := [WordPart.lit s]

/-- A statement carrying a call expression of literal words. -/
def callStmt (ws : List String) : SStmt := SStmt.mk (some (SCmd.callExpr (ws.map litWord)))

/-- A statement wrapping a call expression. -/
def wrapCall (ws : List Word) : SStmt := SStmt.mk (some (SCmd.callExpr ws))

/-- The left-associatively nested pipe over the given stage call
expressions: one pipe operator joins the first two stages and each further
stage adds one more operator whose left operand is the statement wrapping
the nest built so far. -/
def leftNestedPipe (c0 c1 : List Word) (rest : List (List Word)) : SCmd :=
  rest.foldl (fun acc c => SCmd.binaryCmd BinOp.pipe (SStmt.mk (some acc)) (wrapCall c))
    (SCmd.binaryCmd BinOp.pipe (wrapCall c0) (wrapCall c1))

/-- The condition category stated by the amended condition-inference
claim: the table of the specification, guarded by the requirement of at
least two arguments, under which the default generic-command category
stands. -/
def specCondCategory (args : List String) : String :=
  match args with
  | a0 :: _ :: _ =>
      if a0 = "-f" ∨ a0 = "-d" ∨ a0 = "-e" then "file"
      else if a0 = "-z" ∨ a0 = "-n" ∨ a0 = "=" ∨ a0 = "!=" then "string"
      else if a0 = "-eq" ∨ a0 = "-ne" ∨ a0 = "-lt" ∨ a0 = "-le" ∨ a0 = "-gt" ∨ a0 = "-ge" then "number"
      else "command"
  | _ => "command"

/-- Extraction of a single literal word is the literal itself. -/
theorem extractWordValue_litWord (s : String) : extractWordValue (litWord s) = s := by
  show "" ++ s = s
  cases s
  rfl

/-- A permutation of a list of at most one element is an equality. -/
theorem perm_of_len_le_one {α : Type} {l1 l2 : List α}
    (h : l1.Perm l2) (hl : l1.length ≤ 1) : l1 = l2 := by
  match l1, hl with
  | [], _ => exact (List.Perm.nil_eq h).symm ▸ rfl
  | [a], _ => exact (List.singleton_perm).mp h

/-- The import sort is insensitive to the iteration order of the key set. -/
theorem sortStrings_perm (l1 l2 : List String) (h : l1.Perm l2) :
    sortStrings l1 = sortStrings l2 :=
  List.eq_of_perm_of_sorted
    ((List.perm_insertionSort _ l1).trans (h.trans (List.perm_insertionSort _ l2).symm))
    (List.sorted_insertionSort _ l1) (List.sorted_insertionSort _ l2)

/-- The import sort yields a sorted list. -/
theorem sortStrings_sorted (l : List String) : (sortStrings l).Sorted (· ≤ ·) :=
  List.sorted_insertionSort _ l

/-- A statement wrapping a binary command contributes nothing to the
flattened command list. -/
theorem flattenPipeStmt_binary (op : BinOp) (x y : SStmt) :
    flattenPipeStmt (SStmt.mk (some (SCmd.binaryCmd op x y))) = [] := rfl

/-- Flattening a left nest grown from a binary-command seed: with no
further stages it flattens both seed operands, and with further stages only
the last stage survives, every deeper operand being a statement-wrapped
binary command that flattens to nothing. -/
theorem flattenPipe_foldl (rest : List (List Word)) : ∀ (op : BinOp) (x y : SStmt),
    flattenPipeCmd (rest.foldl
        (fun acc c => SCmd.binaryCmd BinOp.pipe (SStmt.mk (some acc)) (wrapCall c))
        (SCmd.binaryCmd op x y)) =
      match rest.getLast? with
      | none => flattenPipeStmt x ++ flattenPipeStmt y
      | some d => [processCallExpr d] := by
  induction rest with
  | nil => intro op x y; rfl
  | cons c cs ih =>
      intro op x y
      rw [List.foldl_cons, ih]
      cases cs with
      | nil => rfl
      | cons d ds => rfl

/-- The condition-type switch started from the default type agrees with
the two-argument-guarded table. -/
theorem inferCondType_command (args : List String) :
    inferCondType args "command" = specCondCategory args := by
  match args with
  | [] => rfl
  | [a] => rfl
  | a0 :: a1 :: rest => rfl

end Bash2Go

namespace Bash2Go

/-! Claim theorems. -/

/-- The elif chain with two elif clauses and a trailing else used to settle
claim C3. -/
def c3Chain : IfClause :=
  IfClause.mk [callStmt ["[", "-f", "a", "]"]] [callStmt ["echo", "A"]]
    (some (IfClause.mk [callStmt ["[", "-f", "b", "]"]] [callStmt ["echo", "B"]]
      (some (IfClause.mk [callStmt ["[", "-f", "c", "]"]] [callStmt ["echo", "C"]]
        (some (IfClause.mk [] [callStmt ["echo", "D"]] none))))))

/-- C3 counterexample: on the chain with two elif clauses and a trailing
else, linearization produces one elif pair, not two, and leaves the else
branch empty, refuting the claim that a chain of k elif clauses yields
exactly k pairs plus the trailing else branch. -/
theorem C3_counterexample :
    ¬ (processIfClause c3Chain).elifBlocks.length = 2 ∧
    (processIfClause c3Chain).elifBlocks.length = 1 ∧
    (processIfClause c3Chain).elseBlock = [] := by
  refine ⟨by decide, by decide, rfl⟩

/-- C3 amended: whenever the else position holds a nested clause, the
builder appends exactly one elif pair, namely the condition and then-block
of that immediately nested clause (deeper elif pairs and the trailing else
body of the nested clause are dropped), the else branch of the result is
always empty, and the generator ignores the elif pair list entirely, so no
else-if chain is emitted from it. -/
theorem C3_amended (cond thenPart : List SStmt) (e : IfClause) :
    (processIfClause (IfClause.mk cond thenPart (some e))).elifBlocks =
      [((processIfClause e).condition, (processIfClause e).thenBlock)] ∧
    (processIfClause (IfClause.mk cond thenPart (some e))).elseBlock = [] ∧
    ∀ (c t eb : List IRStatement) (el1 el2 : List (List IRStatement × List IRStatement)) (ty : String),
      generateStatement (IRStatement.ifS c t eb el1 ty) =
        generateStatement (IRStatement.ifS c t eb el2 ty) := by
  refine ⟨rfl, rfl, ?_⟩
  intro c t eb el1 el2 ty
  simp [generateStatement]

/-- C4 counterexample: the left nest of three stages (two pipe operators)
flattens to a single command, the final stage, not to the claimed three
commands in source order. -/
theorem C4_counterexample :
    ¬ (flattenPipeCmd (leftNestedPipe [litWord "ls", litWord "-la"]
        [litWord "grep", litWord ".sh"] [[litWord "wc", litWord "-l"]])).length = 2 + 1 ∧
    (flattenPipeCmd (leftNestedPipe [litWord "ls", litWord "-la"]
        [litWord "grep", litWord ".sh"] [[litWord "wc", litWord "-l"]])).map Command.name = ["wc"] := by
  refine ⟨by decide, by decide⟩

/-- C4 amended: flattening recurses into both operands only of the binary
command node it is handed directly; an operand statement that wraps a
nested binary command contributes no commands. Hence a single pipe
operator yields its two stage commands in source order, while a left nest
with two or more operators yields only the processed final stage. -/
theorem C4_amended (c0 c1 : List Word) (rest : List (List Word)) :
    flattenPipeCmd (leftNestedPipe c0 c1 rest) =
      match rest.getLast? with
      | none => [processCallExpr c0, processCallExpr c1]
      | some d => [processCallExpr d] := by
  show flattenPipeCmd (rest.foldl _ (SCmd.binaryCmd BinOp.pipe (wrapCall c0) (wrapCall c1))) = _
  rw [flattenPipe_foldl]
  cases rest.getLast? with
  | none => rfl
  | some d => rfl

/-- The builtin table claimed by the specification for claim C5. -/
def claimedBuiltins : List String :=
  ["echo", "cd", "pwd", "mkdir", "rm", "cp", "test", "[", "exit", "export", "read", "source"]

/-- C5 counterexample: the builder classifies mkdir as an external-process
invocation although the claimed table lists it as a builtin, and printf as
a builtin although the claimed table omits it. -/
theorem C5_counterexample :
    (processCallExpr [litWord "mkdir"]).isBuiltin = false ∧ "mkdir" ∈ claimedBuiltins ∧
    (processCallExpr [litWord "printf"]).isBuiltin = true ∧ "printf" ∉ claimedBuiltins := by
  refine ⟨by decide, by decide, by decide, by decide⟩

/-- C5 amended: the builder classifies a command as a natively-lowerable
builtin exactly when its extracted name is one of echo, printf, cd, pwd,
exit, return, test, the open bracket, source, export and read, and every
other command (the empty call included) is flagged for external-process
execution, the gexe flag being the negation of the builtin flag. -/
theorem C5_amended (ws : List Word) :
    ((processCallExpr ws).isBuiltin = true ↔
      (processCallExpr ws).name ∈
        ["echo", "printf", "cd", "pwd", "exit", "return", "test", "[", "source", "export", "read"]) ∧
    (processCallExpr ws).useGexe = !(processCallExpr ws).isBuiltin := by
  cases ws with
  | nil => simp [processCallExpr]
  | cons w rest =>
      simp only [processCallExpr, isBuiltinName, List.mem_cons, List.mem_singleton,
        Bool.or_eq_true, beq_iff_eq, List.not_mem_nil, or_false]
      refine ⟨⟨fun h => by tauto, fun h => by tauto⟩, ?_⟩
      trivial

end Bash2Go

namespace Bash2Go

/-- The assignment node of the claim C6 scenario. -/
def c6AssignNode : AssignNode := ⟨"NAME", some [WordPart.dblQuoted [WordPart.lit "World"]], false⟩

/-- The echo call expression of the claim C6 scenario. -/
def c6EchoWords : List Word :=
  [[WordPart.lit "echo"],
   [WordPart.dblQuoted [WordPart.lit "Hello, ", WordPart.paramExp "NAME", WordPart.lit "!"]]]

/-- C6 counterexample: lowering the echo of the scenario produces a print
call whose single argument is one literal that embeds the parameter
reference textually, not the claimed concatenation of the literal prefix,
the spliced resolved variable, and the literal suffix. -/
theorem C6_counterexample :
    generateCommand (processCallExpr c6EchoWords) =
      .ok "fmt.Println(\"Hello, $\x7bNAME\x7d!\")" ∧
    ("fmt.Println(\"Hello, $\x7bNAME\x7d!\")" : String) ≠
      "fmt.Println(\"Hello, \" + NAME + \"!\")" := by
  refine ⟨rfl, by decide⟩

/-- C6 amended: the assignment of the scenario lowers to a binding of NAME
to the string World, and the echo lowers to a print call whose single
argument is the literal in which the parameter reference appears as a
textual dollar-brace token; the splicing path of the generator requires
the argument to retain surrounding double-quote characters, which the
word-value extraction of the builder strips. -/
theorem C6_amended :
    processAssign c6AssignNode = ⟨"NAME", "World", false, false⟩ ∧
    generateAssignment (processAssign c6AssignNode) = .ok "NAME := World" ∧
    processCallExpr c6EchoWords = ⟨"echo", ["Hello, $\x7bNAME\x7d!"], true, false⟩ ∧
    generateCommand (processCallExpr c6EchoWords) =
      .ok "fmt.Println(\"Hello, $\x7bNAME\x7d!\")" := by
  refine ⟨rfl, rfl, rfl, rfl⟩

/-- C7 counterexample: a test command in condition position whose only
argument is the dash-f operator is left in the generic-command category,
although the claim requires a first argument of dash-f to always yield the
file-test category. -/
theorem C7_counterexample :
    (processIfClause (IfClause.mk [callStmt ["test", "-f"]] [] none)).conditionType = "command" ∧
    ("command" : String) ≠ "file" := by
  refine ⟨by decide, by decide⟩

/-- C7 amended: for a test command in condition position the inferred
category follows the claimed table of the first argument only when the
command carries at least two arguments; with fewer than two arguments the
category remains generic-command whatever the first argument is. -/
theorem C7_amended (args : List String) :
    (processIfClause (IfClause.mk [callStmt ("test" :: args)] [] none)).conditionType =
      specCondCategory args := by
  show (processCondStmts [callStmt ("test" :: args)]).2 = specCondCategory args
  have hmap : (args.map litWord).map extractWordValue = args := by
    rw [List.map_map]
    simp [Function.comp_def, extractWordValue_litWord]
  simp only [processCondStmts, callStmt, List.map_cons, List.foldl_cons, List.foldl_nil,
    processCallExpr, extractWordValue_litWord, hmap]
  simp [inferCondType_command]

end Bash2Go

namespace Bash2Go

/-- The lowered cd command used to settle claim C8. -/
def c8CdTmp : IRStatement := IRStatement.command ⟨"cd", ["/tmp"], true, false⟩

/-- C8 counterexample: executing a subshell whose body changes directory
leaves the enclosing scope in the new directory, refuting the claim that
the working directory of the enclosing scope is unchanged; the emitted
wrapper, shown verbatim, is an immediately-invoked function holding only
the lowered chdir call, with no save or restore of the directory. -/
theorem C8_counterexample :
    (execStmt (IRStatement.subshell [c8CdTmp]) ⟨"/home/user", "/root"⟩).cwd = "/tmp" ∧
    ("/tmp" : String) ≠ "/home/user" ∧
    generateStatement (IRStatement.subshell [c8CdTmp]) =
      .ok "// Execute subshell\n\tfunc() \x7b\n\t\terr = os.Chdir(\"/tmp\")\n\n\t\x7d()" := by
  refine ⟨rfl, by decide, rfl⟩

/-- C8 amended: the subshell lowering is exactly the body text wrapped in
an immediately-invoked function literal, which isolates lexical scope but
performs no working-directory bookkeeping; since the lowered cd inside is
a process-global directory mutation, the enclosing scope observes the
target of any cd executed in the subshell body. -/
theorem C8_amended :
    (∀ (st : RunState) (path : String) (b g : Bool),
        (execStmt (IRStatement.subshell [IRStatement.command ⟨"cd", [path], b, g⟩]) st).cwd = path) ∧
    (∀ stmts : List IRStatement,
        generateStatement (IRStatement.subshell stmts) =
          Except.map (fun s => "// Execute subshell\n\tfunc() \x7b\n\t\t" ++ s ++ "\n\t\x7d()")
            (generateStatements stmts)) := by
  constructor
  · intro st path b g
    simp [execStmt, execStmts]
  · intro stmts
    cases h : generateStatements stmts with
    | ok s =>
        simp only [generateStatement, h, Except.map]
        rfl
    | error e =>
        simp only [generateStatement, h, Except.map]
        rfl

/-- C9: evaluation of the generator at the failing input of the mkdir
claim: the recursive directory-create call targets the first argument, the
dash-p flag, not the final argument. -/
theorem C9_bug_eval :
    generateCommand ⟨"mkdir", ["-p", "build"], false, true⟩ =
      .ok "err = os.MkdirAll(\"-p\", 0755)" ∧
    ("err = os.MkdirAll(\"-p\", 0755)" : String) ≠ "err = os.MkdirAll(\"build\", 0755)" := by
  refine ⟨rfl, by decide⟩

/-- C10: for rm and mkdir with no arguments and cp with fewer than two
arguments, the command generator returns success carrying a single
comment-only warning line, whatever the classification flags, and the
statement generator propagates that success, so generation proceeds while
emitting no operation for the command. -/
theorem C10_warning_success (b g : Bool) (extra : String) :
    generateCommand ⟨"rm", [], b, g⟩ = .ok "// Warning: rm command with no arguments" ∧
    generateCommand ⟨"mkdir", [], b, g⟩ = .ok "// Warning: mkdir command with no arguments" ∧
    generateCommand ⟨"cp", [], b, g⟩ = .ok "// Warning: cp command with insufficient arguments" ∧
    generateCommand ⟨"cp", [extra], b, g⟩ = .ok "// Warning: cp command with insufficient arguments" ∧
    generateStatement (IRStatement.command ⟨"mkdir", [], b, g⟩) =
      .ok "// Warning: mkdir command with no arguments" ∧
    (goHasPre "// Warning: rm command with no arguments" "// " = true ∧
     goContainsSub "// Warning: rm command with no arguments" "\n" = false) ∧
    (goHasPre "// Warning: mkdir command with no arguments" "// " = true ∧
     goContainsSub "// Warning: mkdir command with no arguments" "\n" = false) ∧
    (goHasPre "// Warning: cp command with insufficient arguments" "// " = true ∧
     goContainsSub "// Warning: cp command with insufficient arguments" "\n" = false) := by
  refine ⟨rfl, rfl, rfl, rfl, rfl, ⟨by decide, by decide⟩, ⟨by decide, by decide⟩, ⟨by decide, by decide⟩⟩

end Bash2Go

namespace Bash2Go

/-- C1 counterexample: a while-clause node, for which the builder has no
real lowering rule, converts with success into a placeholder echo command
rather than aborting with an unsupported-construct error, and the current
generator likewise answers an unrecognised redirection operator with a
comment line and success instead of an error. -/
theorem C1_counterexample :
    Legacy.processCommand Legacy.Node.whileClauseNode =
      .ok (Legacy.OldStatement.command ⟨"echo", ["While loop not fully implemented"]⟩) ∧
    generateStatement (IRStatement.redirection "&>" "log.txt") =
      .ok "// Unsupported redirection: &>" := by
  refine ⟨rfl, rfl⟩

/-- C1 amended: the builder aborts with an unsupported-command error
exactly on command node kinds outside its switch; for block, if, while,
for, function-declaration and non-pipe binary nodes it succeeds with a
placeholder echo command, and the generator never raises an
unsupported-construct error for statements it cannot lower, answering
function-declaration statements and unknown loop kinds with comment
placeholders and success. -/
theorem C1_amended :
    (∀ n : Legacy.Node,
        (Legacy.processCommand n).isOk = false ↔ ∃ k, n = Legacy.Node.otherNode k) ∧
    Legacy.processCommand Legacy.Node.blockNode =
      .ok (.command ⟨"echo", ["Block not fully implemented"]⟩) ∧
    Legacy.processCommand Legacy.Node.ifClauseNode =
      .ok (.command ⟨"echo", ["If statement not fully implemented"]⟩) ∧
    Legacy.processCommand Legacy.Node.forClauseNode =
      .ok (.command ⟨"echo", ["For loop not fully implemented"]⟩) ∧
    Legacy.processCommand Legacy.Node.funcDeclNode =
      .ok (.command ⟨"echo", ["Function declaration not fully implemented"]⟩) ∧
    Legacy.processCommand (Legacy.Node.binaryCmd BinOp.andOp) =
      .ok (.command ⟨"echo", ["Binary command not fully implemented"]⟩) ∧
    (∀ (nm : String) (stmts : List IRStatement),
        generateStatement (IRStatement.functionDecl nm stmts) =
          .ok "// Function declaration (handled separately)") ∧
    generateStatement (IRStatement.loop "repeat" [] [] false "" "" "" false "") =
      .ok "// Unsupported loop type: repeat\n\tfor \x7b\n\t\t\n\t\x7d" := by
  refine ⟨?_, rfl, rfl, rfl, rfl, rfl, fun nm stmts => rfl, rfl⟩
  intro n
  cases n with
  | callExpr ws =>
      cases ws <;> simp [Legacy.processCommand, Except.isOk, Except.toBool]
  | binaryCmd op =>
      cases op <;> simp [Legacy.processCommand, Except.isOk, Except.toBool]
  | _ => simp [Legacy.processCommand, Except.isOk, Except.toBool]

end Bash2Go

namespace Bash2Go

/-- C2 counterexample: one variable table of two entries, iterated in its
two possible orders, makes Generate emit two different source texts, the
global declarations appearing in iteration order; generation over the same
Program is therefore not byte-identical across invocations. -/
theorem C2_counterexample :
    [("a", "1"), ("b", "2")].Perm [("b", "2"), ("a", "1")] ∧
    Generate ⟨[("a", "1"), ("b", "2")], [], []⟩ =
      .ok "package main\n\nvar a = 1\nvar b = 2\n\n// Main function generated from Bash script\nfunc main() \x7b\n\t\n\x7d\n\n" ∧
    Generate ⟨[("b", "2"), ("a", "1")], [], []⟩ =
      .ok "package main\n\nvar b = 2\nvar a = 1\n\n// Main function generated from Bash script\nfunc main() \x7b\n\t\n\x7d\n\n" ∧
    ("package main\n\nvar a = 1\nvar b = 2\n\n// Main function generated from Bash script\nfunc main() \x7b\n\t\n\x7d\n\n" : String) ≠
      "package main\n\nvar b = 2\nvar a = 1\n\n// Main function generated from Bash script\nfunc main() \x7b\n\t\n\x7d\n\n" := by
  refine ⟨by decide, rfl, rfl, by decide⟩

/-- C2 amended: the import block is sorted lexically and is therefore
independent of the iteration order of the import key set, and Generate is
byte-identical across iteration orders of the variable and function tables
only when each table has at most one entry; with two or more entries, the
emitted global declarations and function bodies follow the table iteration
order, which the counterexample shows to reach the output. -/
theorem C2_amended (ir1 ir2 : IRGen)
    (hv : ir1.varTable.Perm ir2.varTable) (hf : ir1.funcTable.Perm ir2.funcTable)
    (hm : ir1.mainStatements = ir2.mainStatements)
    (hv1 : ir1.varTable.length ≤ 1) (hf1 : ir1.funcTable.length ≤ 1) :
    Generate ir1 = Generate ir2 ∧
    (∀ imps1 imps2 : List String, imps1.Perm imps2 → sortStrings imps1 = sortStrings imps2) ∧
    (∀ imps : List String, (sortStrings imps).Sorted (· ≤ ·)) := by
  refine ⟨?_, fun imps1 imps2 h => sortStrings_perm imps1 imps2 h, fun imps => sortStrings_sorted imps⟩
  have h1 : ir1.varTable = ir2.varTable := perm_of_len_le_one hv hv1
  have h2 : ir1.funcTable = ir2.funcTable := perm_of_len_le_one hf hf1
  cases ir1 with
  | mk v1 f1 m1 =>
      cases ir2 with
      | mk v2 f2 m2 =>
          simp only at h1 h2 hm
          rw [h1, h2, hm]

/-- C2 witness: the amended determinism applied to a concrete Program of
one variable and one function, the two runs iterating the singleton tables
in their only order. -/
theorem C2_amended_witness :
    Generate ⟨[("a", "1")], [("f", [])], []⟩ = Generate ⟨[("a", "1")], [("f", [])], []⟩ ∧
    (∀ imps1 imps2 : List String, imps1.Perm imps2 → sortStrings imps1 = sortStrings imps2) ∧
    (∀ imps : List String, (sortStrings imps).Sorted (· ≤ ·)) :=
  C2_amended ⟨[("a", "1")], [("f", [])], []⟩ ⟨[("a", "1")], [("f", [])], []⟩
    (List.Perm.refl _) (List.Perm.refl _) rfl (by decide) (by decide)

end Bash2Go
